import Mathlib

/-
Verification of the artist-dapp client against its specification.

The development shallowly embeds the pure logic of the repository:
the slug codec and path router of `ProjectsApp.tsx`, the field and form
validators and the availability checker of the dashboard component, and
the mint submission flow `handleMint`.  JS strings are modelled as
`List Char` (wrapped in `String`), JS regex character classes as decidable
predicates on code points, machine-free JS `BigInt` arithmetic as `Nat`,
and fallible external collaborators (the fetch API, the wallet provider)
as explicit parameters.
-/

/-! ### JS string primitives -/

/-- Code points matched by the JS regex class `\s` (whitespace). -/
def isJsSpace (c : Char) : Bool :=
  c.toNat = 9 || c.toNat = 10 || c.toNat = 11 || c.toNat = 12 || c.toNat = 13 ||
  c.toNat = 32 || c.toNat = 160 || c.toNat = 5760 ||
  (8192 ≤ c.toNat && c.toNat ≤ 8202) ||
  c.toNat = 8232 || c.toNat = 8233 || c.toNat = 8239 || c.toNat = 8287 ||
  c.toNat = 12288 || c.toNat = 65279

/-- Code points matched by the JS regex class `\w`, i.e. `[A-Za-z0-9_]`. -/
def isWordChar (c : Char) : Bool :=
  (65 ≤ c.toNat && c.toNat ≤ 90) || (97 ≤ c.toNat && c.toNat ≤ 122) ||
  (48 ≤ c.toNat && c.toNat ≤ 57) || c.toNat = 95

/-- Code points matched by the JS regex class `[0-9]` (`\d`). -/
def isAsciiDigit (c : Char) : Bool := 48 ≤ c.toNat && c.toNat ≤ 57

/-- Code points matched by `[a-fA-F0-9]`. -/
def isHexDigit (c : Char) : Bool :=
  isAsciiDigit c || (97 ≤ c.toNat && c.toNat ≤ 102) || (65 ≤ c.toNat && c.toNat ≤ 70)

/-- Model of `String.prototype.toLowerCase` on one character
(ASCII range; the slug pipeline removes non-ASCII letters anyway). -/
def jsToLower (c : Char) : Char :=
  if 65 ≤ c.toNat ∧ c.toNat ≤ 90 then Char.ofNat (c.toNat + 32) else c

/-- Model of `String.prototype.toUpperCase` on one character (ASCII range). -/
def jsToUpper (c : Char) : Char :=
  if 97 ≤ c.toNat ∧ c.toNat ≤ 122 then Char.ofNat (c.toNat - 32) else c

/-- Model of `String.prototype.trim`: drop JS whitespace from both ends. -/
def jsTrim (l : List Char) : List Char :=
  ((l.dropWhile isJsSpace).reverse.dropWhile isJsSpace).reverse

/-- Replace each maximal run of characters satisfying `p` by the single
character `r`; models `replace(/p+/g, r)` for a character class `p`.
The boolean flag records whether the scan is inside a run. -/
def collapseAux (p : Char → Bool) (r : Char) : Bool → List Char → List Char
  | _, [] => []
  | inRun, c :: cs =>
    if p c then
      if inRun then collapseAux p r true cs else r :: collapseAux p r true cs
    else c :: collapseAux p r false cs

/-- Top-level entry of `collapseAux`, starting outside a run. -/
def collapseRuns (p : Char → Bool) (r : Char) (l : List Char) : List Char :=
  collapseAux p r false l

/-- The character class consisting of the hyphen, used by the final
hyphen-collapsing replace of the slug pipeline. -/
def isDashChar (c : Char) : Bool := c == '-'

/-- Model of `String.prototype.split` with a one-character separator:
splits on every occurrence, keeping empty pieces. -/
def jsSplitAux (sep : Char) : List Char → List Char → List (List Char)
  | acc, [] => [acc.reverse]
  | acc, c :: cs =>
    if c == sep then acc.reverse :: jsSplitAux sep [] cs
    else jsSplitAux sep (c :: acc) cs

def jsSplit (sep : Char) (l : List Char) : List (List Char) :=
  jsSplitAux sep [] l

/-- Model of `Array.prototype.join` with a one-character separator. -/
def jsJoin (sep : Char) : List (List Char) → List Char
  | [] => []
  | [w] => w
  | w :: ws => w ++ sep :: jsJoin sep ws

/-- Digit run to number, most significant first. -/
def digitsToNat (l : List Char) : Nat :=
  l.foldl (fun n c => 10 * n + (c.toNat - 48)) 0

/-- Model of JS `parseInt(s)` in base 10: skip leading whitespace, optional
sign, then a non-empty run of decimal digits; `none` models `NaN`. -/
def jsParseInt (s : String) : Option Int :=
  let l := s.data.dropWhile isJsSpace
  let signAndRest : Int × List Char :=
    match l with
    | '-' :: t => (-1, t)
    | '+' :: t => (1, t)
    | _ => (1, l)
  let ds := signAndRest.2.takeWhile isAsciiDigit
  if ds = [] then none else some (signAndRest.1 * digitsToNat ds)

/-- An exact decimal value as an unnormalized fraction with a positive
power-of-ten denominator; the result type of the `parseFloat` model. -/
structure JsNum where
  num : Int
  den : Nat
  deriving DecidableEq, Repr

/-- Model of JS `parseFloat(s)` on ASCII decimal literals: skip leading
whitespace, optional sign, integer digits, optional fraction, optional
decimal exponent; `none` models `NaN`.  The value is represented exactly
as `num / den`. -/
def jsParseFloat (s : String) : Option JsNum :=
  let l := s.data.dropWhile isJsSpace
  let signAndRest : Int × List Char :=
    match l with
    | '-' :: t => (-1, t)
    | '+' :: t => (1, t)
    | _ => (1, l)
  let ip := signAndRest.2.takeWhile isAsciiDigit
  let r1 := signAndRest.2.drop ip.length
  let fracAndRest : List Char × List Char :=
    match r1 with
    | '.' :: t => (t.takeWhile isAsciiDigit, t.drop (t.takeWhile isAsciiDigit).length)
    | _ => ([], r1)
  let fp := fracAndRest.1
  if ip = [] ∧ fp = [] then none
  else
    let mantNum : Int := signAndRest.1 * (digitsToNat ip * 10 ^ fp.length + digitsToNat fp)
    let expVal : Int :=
      match fracAndRest.2 with
      | 'e' :: t =>
        match t with
        | '-' :: u => if u.takeWhile isAsciiDigit = [] then 0
            else -(digitsToNat (u.takeWhile isAsciiDigit) : Int)
        | '+' :: u => if u.takeWhile isAsciiDigit = [] then 0
            else (digitsToNat (u.takeWhile isAsciiDigit) : Int)
        | _ => if t.takeWhile isAsciiDigit = [] then 0
            else (digitsToNat (t.takeWhile isAsciiDigit) : Int)
      | 'E' :: t =>
        match t with
        | '-' :: u => if u.takeWhile isAsciiDigit = [] then 0
            else -(digitsToNat (u.takeWhile isAsciiDigit) : Int)
        | '+' :: u => if u.takeWhile isAsciiDigit = [] then 0
            else (digitsToNat (u.takeWhile isAsciiDigit) : Int)
        | _ => if t.takeWhile isAsciiDigit = [] then 0
            else (digitsToNat (t.takeWhile isAsciiDigit) : Int)
      | _ => 0
    match expVal with
    | Int.ofNat k => some ⟨mantNum * 10 ^ k, 10 ^ fp.length⟩
    | Int.negSucc k => some ⟨mantNum, 10 ^ fp.length * 10 ^ (k + 1)⟩

/-- JS `NaN`-aware comparison `x < k`: false when the parse failed. -/
def jsLtInt (o : Option Int) (k : Int) : Bool :=
  match o with
  | none => false
  | some v => v < k

/-- JS `NaN`-aware exact comparison `x < k` on parsed floats. -/
def jsLtNum (o : Option JsNum) (k : Int) : Bool :=
  match o with
  | none => false
  | some v => v.num < k * v.den

/-- JS `NaN`-aware exact comparison `x > k` on parsed floats. -/
def jsGtNum (o : Option JsNum) (k : Int) : Bool :=
  match o with
  | none => false
  | some v => k * v.den < v.num

/-! ### Slug codec (`createSlug` / `decodeSlug` in `ProjectsApp.tsx` and
`src/utils/urlUtils`) -/

/-- Characters kept by `replace(/[^\w\s-]/g, '')`. -/
def keepSlugChar (c : Char) : Bool := isWordChar c || isJsSpace c || c == '-'

/-- The `createSlug` pipeline on character lists: lowercase, trim, strip
special characters, replace whitespace runs by `-`, collapse `-` runs. -/
def slugChars (l : List Char) : List Char :=
  collapseRuns isDashChar '-'
    (collapseRuns isJsSpace '-'
      ((jsTrim (l.map jsToLower)).filter keepSlugChar))

/-- Source `createSlug`: lowercase, trim, remove special characters,
replace whitespace runs by a hyphen, collapse hyphen runs. -/
def createSlug (s : String) : String := ⟨slugChars s.data⟩

/-- Capitalize one word: `word.charAt(0).toUpperCase() + word.slice(1)`. -/
def capitalizeWord : List Char → List Char
  | [] => []
  | c :: cs => jsToUpper c :: cs

/-- Source `decodeSlug`: replace every hyphen by a space, split on spaces,
capitalize each word, join with spaces. -/
def decodeSlug (s : String) : String :=
  ⟨jsJoin ' '
    ((jsSplit ' ' (s.data.map (fun c => if c == '-' then ' ' else c))).map
      capitalizeWord)⟩

/-! ### Field validators (dashboard component) -/

/-- Number of decimal digits left after stripping every non-digit
character, as done by the mobile validator. -/
def mobileDigitCount (mobile : String) : Nat :=
  (mobile.data.filter isAsciiDigit).length

/-- Source `validateMobile`: required; strip non-digit characters with a
global replace of the non-digit class; fewer than 10 digits or more than
15 digits is rejected with a message, otherwise the empty string. -/
def validateMobile (mobile : String) : String :=
  if mobile = "" then "Mobile number is required"
  else if mobileDigitCount mobile < 10 then "Please enter a valid mobile number"
  else if mobileDigitCount mobile > 15 then "Phone number cannot exceed 15 digits"
  else ""

/-- Source test of the regex anchored `0x` followed by exactly forty hex
digits, applied to the trimmed contract owner. -/
def ethAddressTest (s : String) : Bool :=
  match s.data with
  | '0' :: 'x' :: rest => rest.length == 40 && rest.all isHexDigit
  | _ => false

/-! ### Project creation form validation (`validateForm`) -/

/-- The client-side staging structure of the creation form; the image is
recorded only by presence. -/
structure CreateFormData where
  projectName : String
  projectSymbol : String
  imagePresent : Bool
  totalSupply : String
  mintPrice : String
  contractOwner : String
  royalties : String

/-- Rule 1 of `validateForm`: trimmed project name empty. -/
def ruleNameMissing (fd : CreateFormData) : Bool :=
  jsTrim fd.projectName.data == []

/-- Rule 2: trimmed project symbol empty. -/
def ruleSymbolMissing (fd : CreateFormData) : Bool :=
  jsTrim fd.projectSymbol.data == []

/-- Rule 3: untrimmed symbol longer than ten characters. -/
def ruleSymbolTooLong (fd : CreateFormData) : Bool :=
  fd.projectSymbol.data.length > 10

/-- Rule 4: the project-name availability verdict is explicitly `false`. -/
def ruleNameTaken (nameAvail : Option Bool) : Bool :=
  nameAvail == some false

/-- Rule 5: the symbol availability verdict is explicitly `false`. -/
def ruleSymbolTaken (symbolAvail : Option Bool) : Bool :=
  symbolAvail == some false

/-- Rule 6: total supply empty or parsed below one (a failed parse,
JS `NaN`, compares false and passes). -/
def ruleSupplyBad (fd : CreateFormData) : Bool :=
  fd.totalSupply == "" || jsLtInt (jsParseInt fd.totalSupply) 1

/-- Rule 7: mint price empty or parsed negative. -/
def rulePriceBad (fd : CreateFormData) : Bool :=
  fd.mintPrice == "" || jsLtNum (jsParseFloat fd.mintPrice) 0

/-- Rule 8: royalties empty or parsed negative. -/
def ruleRoyaltiesNeg (fd : CreateFormData) : Bool :=
  fd.royalties == "" || jsLtNum (jsParseFloat fd.royalties) 0

/-- Rule 9: royalties parsed above one hundred. -/
def ruleRoyaltiesHigh (fd : CreateFormData) : Bool :=
  jsGtNum (jsParseFloat fd.royalties) 100

/-- Rule 10: trimmed contract owner empty. -/
def ruleOwnerMissing (fd : CreateFormData) : Bool :=
  jsTrim fd.contractOwner.data == []

/-- Rule 11: trimmed contract owner fails the address pattern. -/
def ruleOwnerBadFormat (fd : CreateFormData) : Bool :=
  !ethAddressTest ⟨jsTrim fd.contractOwner.data⟩

/-- Rule 12: no image selected. -/
def ruleImageMissing (fd : CreateFormData) : Bool :=
  !fd.imagePresent

/-- Source `validateForm` as the chain of early returns of the component:
the message of the first failing check, `none` when every check passes. -/
def validateFormMsg (fd : CreateFormData) (nameAvail symbolAvail : Option Bool) :
    Option String :=
  if ruleNameMissing fd then some "Project name is required"
  else if ruleSymbolMissing fd then some "Project symbol is required"
  else if ruleSymbolTooLong fd then some "Project symbol must be 10 characters or less"
  else if ruleNameTaken nameAvail then
    some "Project name is already taken. Please choose a different name."
  else if ruleSymbolTaken symbolAvail then
    some "Project symbol is already taken. Please choose a different symbol."
  else if ruleSupplyBad fd then some "Total supply must be at least 1"
  else if rulePriceBad fd then some "Mint price cannot be negative"
  else if ruleRoyaltiesNeg fd then some "Royalties cannot be negative"
  else if ruleRoyaltiesHigh fd then some "Royalties cannot exceed 100%"
  else if ruleOwnerMissing fd then some "Contract owner wallet address is required"
  else if ruleOwnerBadFormat fd then
    some "Please enter a valid Ethereum wallet address (0x...)"
  else if ruleImageMissing fd then some "Project image is required"
  else none

/-- The specification's fixed priority order of rules, as failure
predicates paired with their messages. -/
def formRules (fd : CreateFormData) (nameAvail symbolAvail : Option Bool) :
    List (Bool × String) :=
  [ (ruleNameMissing fd, "Project name is required"),
    (ruleSymbolMissing fd, "Project symbol is required"),
    (ruleSymbolTooLong fd, "Project symbol must be 10 characters or less"),
    (ruleNameTaken nameAvail,
      "Project name is already taken. Please choose a different name."),
    (ruleSymbolTaken symbolAvail,
      "Project symbol is already taken. Please choose a different symbol."),
    (ruleSupplyBad fd, "Total supply must be at least 1"),
    (rulePriceBad fd, "Mint price cannot be negative"),
    (ruleRoyaltiesNeg fd, "Royalties cannot be negative"),
    (ruleRoyaltiesHigh fd, "Royalties cannot exceed 100%"),
    (ruleOwnerMissing fd, "Contract owner wallet address is required"),
    (ruleOwnerBadFormat fd, "Please enter a valid Ethereum wallet address (0x...)"),
    (ruleImageMissing fd, "Project image is required") ]

/-- Modelled from the spec: first-error-wins validation reports the
message of the least-index failing rule of the fixed priority order. -/
def firstFailingRule (fd : CreateFormData) (nameAvail symbolAvail : Option Bool) :
    Option String :=
  (formRules fd nameAvail symbolAvail).findSome?
    (fun r => if r.1 then some r.2 else none)

/-! ### Availability checker (dashboard component) -/

/-- Result of one availability check: the new value of the tri-state
verdict (`none` is the unknown verdict) and whether a network request was
issued.  `prev` is the verdict state before the call, kept when the
function returns without touching it. -/
structure AvailOutcome where
  verdict : Option Bool
  networkCalled : Bool
  deriving DecidableEq, Repr

/-- Source `checkProjectNameAvailability`: a trimmed input that is empty or
shorter than two characters resets the verdict to unknown without a
request; without an artist id nothing happens; otherwise the backend is
queried and a network or parse failure collapses the verdict to unknown.
The fetch-and-parse step is a parameter: `Except.ok b` models a parsed
`{available: b}` response, `Except.error ()` a rejection or parse error. -/
def checkProjectNameAvailability (projectName : String) (artistId : Option String)
    (fetchResult : Except Unit Bool) (prev : Option Bool) : AvailOutcome :=
  if jsTrim projectName.data = [] ∨ (jsTrim projectName.data).length < 2 then
    ⟨none, false⟩
  else
    match artistId with
    | none => ⟨prev, false⟩
    | some _ =>
      match fetchResult with
      | .ok b => ⟨some b, true⟩
      | .error _ => ⟨none, true⟩

/-- Source `checkProjectSymbolAvailability`: identical shape with the
length threshold one instead of two. -/
def checkProjectSymbolAvailability (projectSymbol : String) (artistId : Option String)
    (fetchResult : Except Unit Bool) (prev : Option Bool) : AvailOutcome :=
  if jsTrim projectSymbol.data = [] ∨ (jsTrim projectSymbol.data).length < 1 then
    ⟨none, false⟩
  else
    match artistId with
    | none => ⟨prev, false⟩
    | some _ =>
      match fetchResult with
      | .ok b => ⟨some b, true⟩
      | .error _ => ⟨none, true⟩

/-! ### Project data and minting gate (`ProjectsApp.tsx`) -/

inductive ProjStatus where
  | pending
  | approved
  | rejected
  deriving DecidableEq, Repr

/-- The fields of a `Project` record that the mint gate and mint flow
read.  `mintPrice` is the stored advertised price (a display-only
estimate); `contractAddress` is `none` when the field is absent. -/
structure ProjectT where
  mintPrice : Int
  contractAddress : Option String
  mintingEnabled : Bool
  status : ProjStatus
  deriving DecidableEq, Repr

/-- JS truthiness of `project.contractAddress`: present and non-empty. -/
def contractAddressTruthy (p : ProjectT) : Bool :=
  match p.contractAddress with
  | none => false
  | some s => !(s == "")

/-- Source `canMint`: `project.status === 'approved' &&
project.contractAddress && project.mintingEnabled`. -/
def canMint (p : ProjectT) : Bool :=
  decide (p.status = ProjStatus.approved) && contractAddressTruthy p &&
    p.mintingEnabled

/-- The minting section of `ProjectView` is rendered exactly under
`canMint`. -/
def rendersMintSection (p : ProjectT) : Bool := canMint p

/-- The coming-soon indicator is rendered under `project.status ===
'approved' && project.contractAddress && !project.mintingEnabled`. -/
def rendersComingSoon (p : ProjectT) : Bool :=
  decide (p.status = ProjStatus.approved) && contractAddressTruthy p &&
    !p.mintingEnabled

/-! ### Mint flow (`handleMint`) -/

/-- The Polygon main network chain id used as the required target chain. -/
def polygonChainId : Nat := 137

/-- One wallet-provider capability invocation observable in `handleMint`. -/
inductive WalletAction where
  | switchChain (chainId : Nat)
  | writeContract (addr : String) (functionName : String) (mintAmount : Nat)
      (displayName : String) (wallet : String) (value : Nat)
  deriving DecidableEq, Repr

/-- The reactive inputs `handleMint` reads at submit time.  `basePrice` is
the result of the `publicSaleCost` on-chain read (`none` while it has not
produced a value); `switchChainSucceeds` tells whether the chain-switch
capability, when invoked, resolves or throws. -/
structure MintEnv where
  isConnected : Bool
  walletAddress : Option String
  project : Option ProjectT
  chainId : Nat
  basePrice : Option Nat
  mintAmount : Nat
  switchChainSucceeds : Bool
  deriving DecidableEq, Repr

/-- Observable outcome of one `handleMint` call: the `minting` state flag
(false is the idle state), the last message set, and the wallet-provider
invocations in order. -/
structure MintOutcome where
  minting : Bool
  message : Option String
  actions : List WalletAction
  deriving DecidableEq, Repr

/-- JS truthiness of `project?.contractAddress` seen from `handleMint`. -/
def mintContractAddress (op : Option ProjectT) : Option String :=
  match op with
  | none => none
  | some p =>
    match p.contractAddress with
    | none => none
    | some s => if s = "" then none else some s

/-- Source `handleMint`: connection check, contract-address check, chain
switch when off-target, then submission with value
`(basePrice || BigInt(0)) * BigInt(mintAmount)`. -/
def handleMint (e : MintEnv) : MintOutcome :=
  if !e.isConnected || e.walletAddress.isNone then
    ⟨false, some "Please connect your wallet first", []⟩
  else
    match mintContractAddress e.project with
    | none => ⟨false, some "Project contract address not found", []⟩
    | some addr =>
      if e.chainId ≠ polygonChainId ∧ ¬ e.switchChainSucceeds then
        ⟨false, some "Please switch to Polygon network to mint",
          [WalletAction.switchChain polygonChainId]⟩
      else
        let pre : List WalletAction :=
          if e.chainId ≠ polygonChainId then [WalletAction.switchChain polygonChainId]
          else []
        let pricePerNFT : Nat := e.basePrice.getD 0
        let totalPrice : Nat := pricePerNFT * e.mintAmount
        ⟨true, some "Initiating mint transaction...",
          pre ++ [WalletAction.writeContract addr "mint" e.mintAmount "Collector"
            (e.walletAddress.getD "") totalPrice]⟩

/-! ### View router (`ProjectsApp` mount effect and render derivation) -/

inductive View where
  | gallery
  | project
  deriving DecidableEq, Repr

/-- Source path decomposition: split the path on the separator and keep
the truthy (non-empty) pieces. -/
def pathParts (path : String) : List String :=
  ((jsSplit '/' path.data).map String.mk).filter (fun p => !(p == ""))

/-- Source mount effect: a three-piece path whose first piece is
`projects` selects the project-detail view, anything else the gallery. -/
def initialView (path : String) : View :=
  let parts := pathParts path
  if parts.length = 3 ∧ parts.head? = some "projects" then View.project
  else View.gallery

/-- Source render derivation of the decoded artist and project names: only
a three-piece path yields them, by decoding the second and third piece. -/
def routeNames (path : String) : Option (String × String) :=
  match pathParts path with
  | [_, a, p] => some (decodeSlug a, decodeSlug p)
  | _ => none

/-! ### Character-level lemmas for the slug codec -/

/-- The character classes of the slug output: lowercase letter (97-122),
digit (48-57), underscore (95), or hyphen (45), by code point. -/
def isSlugOutChar (c : Char) : Bool :=
  (97 ≤ c.toNat && c.toNat ≤ 122) || (48 ≤ c.toNat && c.toNat ≤ 57) ||
  c.toNat = 95 || c.toNat = 45

theorem char_toNat_ofNat (n : Nat) (h : n < 55296) : (Char.ofNat n).toNat = n := by
  unfold Char.ofNat
  rw [dif_pos (Or.inl h)]
  simp [Char.ofNatAux, Char.toNat, UInt32.toNat, BitVec.toNat_ofNatLt]

theorem char_eq_of_toNat_eq {c d : Char} (h : c.toNat = d.toNat) : c = d := by
  apply Char.eq_of_val_eq
  apply UInt32.eq_of_toBitVec_eq
  apply BitVec.eq_of_toNat_eq
  simpa [Char.toNat, UInt32.toNat] using h

theorem jsToLower_not_upper (c : Char) :
    ¬ (65 ≤ (jsToLower c).toNat ∧ (jsToLower c).toNat ≤ 90) := by
  unfold jsToLower
  split
  · rw [char_toNat_ofNat _ (by omega)]
    omega
  · omega

theorem mem_collapseAux {p : Char → Bool} {r : Char} :
    ∀ {b : Bool} {l : List Char} {c : Char}, c ∈ collapseAux p r b l →
      c = r ∨ (c ∈ l ∧ p c = false) := by
  intro b l
  induction l generalizing b with
  | nil => intro c h; simp [collapseAux] at h
  | cons a t ih =>
    intro c h
    simp only [collapseAux] at h
    by_cases hp : p a
    · rw [if_pos hp] at h
      cases b with
      | true =>
        rw [if_pos rfl] at h
        rcases ih h with h1 | ⟨h2, h3⟩
        · exact Or.inl h1
        · exact Or.inr ⟨List.mem_cons_of_mem _ h2, h3⟩
      | false =>
        rw [if_neg (by decide)] at h
        rcases List.mem_cons.mp h with h | h
        · exact Or.inl h
        · rcases ih h with h1 | ⟨h2, h3⟩
          · exact Or.inl h1
          · exact Or.inr ⟨List.mem_cons_of_mem _ h2, h3⟩
    · rw [if_neg hp] at h
      rcases List.mem_cons.mp h with h | h
      · subst h; exact Or.inr ⟨List.mem_cons_self _ _, by simpa using hp⟩
      · rcases ih h with h1 | ⟨h2, h3⟩
        · exact Or.inl h1
        · exact Or.inr ⟨List.mem_cons_of_mem _ h2, h3⟩

theorem mem_jsTrim {l : List Char} {c : Char} (h : c ∈ jsTrim l) : c ∈ l := by
  unfold jsTrim at h
  rw [List.mem_reverse] at h
  have h2 := (List.dropWhile_sublist _).mem h
  rw [List.mem_reverse] at h2
  exact (List.dropWhile_sublist _).mem h2

theorem mem_slugChars {l : List Char} {c : Char} (h : c ∈ slugChars l) :
    isSlugOutChar c = true := by
  unfold slugChars collapseRuns at h
  rcases mem_collapseAux h with h1 | ⟨h2, hdash⟩
  · subst h1; decide
  · rcases mem_collapseAux h2 with h1 | ⟨h3, hws⟩
    · subst h1; decide
    · rw [List.mem_filter] at h3
      obtain ⟨h4, hkeep⟩ := h3
      have h5 := mem_jsTrim h4
      rw [List.mem_map] at h5
      obtain ⟨d, _, hd⟩ := h5
      have hnu : ¬ (65 ≤ c.toNat ∧ c.toNat ≤ 90) := hd ▸ jsToLower_not_upper d
      have hdash2 : (c == '-') = false := by simpa [isDashChar] using hdash
      have hword : isWordChar c = true := by
        simpa [keepSlugChar, hws, hdash2] using hkeep
      simp only [isWordChar, Bool.or_eq_true, Bool.and_eq_true, decide_eq_true_eq] at hword
      simp only [isSlugOutChar, Bool.or_eq_true, Bool.and_eq_true, decide_eq_true_eq]
      omega

/-- No two adjacent hyphen characters. -/
def noDoubleDash : List Char → Bool
  | a :: b :: t => !(a == '-' && b == '-') && noDoubleDash (b :: t)
  | _ => true

/-- The head, when present, is not a hyphen. -/
def headNotDash : List Char → Bool
  | [] => true
  | c :: _ => !(c == '-')

theorem headNotDash_collapseAux_true (l : List Char) :
    headNotDash (collapseAux isDashChar '-' true l) = true := by
  induction l with
  | nil => rfl
  | cons a t ih =>
    simp only [collapseAux]
    by_cases hp : isDashChar a
    · rw [if_pos hp, if_pos trivial]; exact ih
    · rw [if_neg hp]
      simp only [headNotDash]
      simpa [isDashChar] using hp

theorem noDoubleDash_collapseAux :
    ∀ (b : Bool) (l : List Char), noDoubleDash (collapseAux isDashChar '-' b l) = true := by
  intro b l
  induction l generalizing b with
  | nil => rfl
  | cons a t ih =>
    simp only [collapseAux]
    by_cases hp : isDashChar a
    · rw [if_pos hp]
      cases b with
      | true => rw [if_pos (by trivial)]; exact ih true
      | false =>
        rw [if_neg (by decide)]
        have hh := headNotDash_collapseAux_true t
        have hn := ih true
        cases hcol : collapseAux isDashChar '-' true t with
        | nil => rfl
        | cons x xs =>
          rw [hcol] at hh hn
          simp only [noDoubleDash, Bool.and_eq_true]
          constructor
          · simp only [headNotDash] at hh
            simp [hh]
          · exact hn
    · rw [if_neg hp]
      have hn := ih false
      cases hcol : collapseAux isDashChar '-' false t with
      | nil => rfl
      | cons x xs =>
        rw [hcol] at hn
        simp only [noDoubleDash, Bool.and_eq_true]
        refine ⟨?_, hn⟩
        simp only [isDashChar] at hp
        simp [hp]

theorem slugOut_not_upper {c : Char} (h : isSlugOutChar c = true) :
    jsToLower c = c := by
  simp only [isSlugOutChar, Bool.or_eq_true, Bool.and_eq_true, decide_eq_true_eq] at h
  unfold jsToLower
  rw [if_neg (by omega)]

theorem slugOut_not_space {c : Char} (h : isSlugOutChar c = true) :
    isJsSpace c = false := by
  simp only [isSlugOutChar, Bool.or_eq_true, Bool.and_eq_true, decide_eq_true_eq] at h
  simp only [isJsSpace, Bool.or_eq_true, Bool.and_eq_true, decide_eq_true_eq,
    Bool.or_eq_false_iff, Bool.and_eq_false_iff, decide_eq_false_iff_not]
  omega

theorem slugOut_keep {c : Char} (h : isSlugOutChar c = true) :
    keepSlugChar c = true := by
  simp only [isSlugOutChar, Bool.or_eq_true, Bool.and_eq_true, decide_eq_true_eq] at h
  simp only [keepSlugChar, isWordChar, Bool.or_eq_true, Bool.and_eq_true,
    decide_eq_true_eq, beq_iff_eq]
  rcases h with ((h | h) | h) | h
  · exact Or.inl (Or.inl (by omega))
  · exact Or.inl (Or.inl (by omega))
  · exact Or.inl (Or.inl (by omega))
  · exact Or.inr (char_eq_of_toNat_eq (by rw [h]; rfl))

theorem dropWhile_eq_self_of_none {p : Char → Bool} {l : List Char}
    (h : ∀ c ∈ l, p c = false) : l.dropWhile p = l := by
  cases l with
  | nil => rfl
  | cons a t =>
    rw [List.dropWhile_cons_of_neg]
    simp [h a (List.mem_cons_self a t)]

theorem jsTrim_eq_self {l : List Char} (h : ∀ c ∈ l, isJsSpace c = false) :
    jsTrim l = l := by
  unfold jsTrim
  rw [dropWhile_eq_self_of_none h]
  rw [dropWhile_eq_self_of_none (fun c hc => h c (List.mem_reverse.mp hc))]
  exact List.reverse_reverse l

theorem collapseAux_eq_self_of_none {p : Char → Bool} {r : Char} {l : List Char}
    (h : ∀ c ∈ l, p c = false) : collapseAux p r false l = l := by
  induction l with
  | nil => rfl
  | cons a t ih =>
    simp only [collapseAux]
    rw [if_neg (by simp [h a (List.mem_cons_self a t)])]
    rw [ih (fun c hc => h c (List.mem_cons_of_mem _ hc))]

theorem collapseAux_dash_eq_self {l : List Char} (hn : noDoubleDash l = true) :
    collapseAux isDashChar '-' false l = l ∧
      (headNotDash l = true → collapseAux isDashChar '-' true l = l) := by
  induction l with
  | nil => exact ⟨rfl, fun _ => rfl⟩
  | cons a t ih =>
    have hnt : noDoubleDash t = true := by
      cases t with
      | nil => rfl
      | cons b u =>
        simp only [noDoubleDash, Bool.and_eq_true] at hn
        exact hn.2
    obtain ⟨ih1, ih2⟩ := ih hnt
    constructor
    · simp only [collapseAux]
      by_cases hp : isDashChar a
      · rw [if_pos hp, if_neg (by decide)]
        have ha : a = '-' := by simpa [isDashChar] using hp
        have hht : headNotDash t = true := by
          cases t with
          | nil => rfl
          | cons b u =>
            subst ha
            simp only [noDoubleDash, Bool.and_eq_true, Bool.not_eq_true'] at hn
            have h1 := hn.1
            simp only [headNotDash, Bool.not_eq_true']
            simpa using h1
        rw [ih2 hht, ha]
      · rw [if_neg hp, ih1]
    · intro hh
      simp only [collapseAux]
      have ha : ¬ isDashChar a := by
        simp only [headNotDash, Bool.not_eq_true'] at hh
        simp [isDashChar, hh]
      rw [if_neg ha, ih1]

theorem map_eq_self_of {f : Char → Char} {l : List Char}
    (h : ∀ c ∈ l, f c = c) : l.map f = l := by
  induction l with
  | nil => rfl
  | cons a t ih =>
    simp only [List.map_cons]
    rw [h a (List.mem_cons_self a t), ih (fun c hc => h c (List.mem_cons_of_mem _ hc))]

theorem slugChars_idem (l : List Char) : slugChars (slugChars l) = slugChars l := by
  have hall : ∀ c ∈ slugChars l, isSlugOutChar c = true := fun c hc => mem_slugChars hc
  have h1 : (slugChars l).map jsToLower = slugChars l :=
    map_eq_self_of (fun c hc => slugOut_not_upper (hall c hc))
  have h2 : jsTrim (slugChars l) = slugChars l :=
    jsTrim_eq_self (fun c hc => slugOut_not_space (hall c hc))
  have h3 : (slugChars l).filter keepSlugChar = slugChars l :=
    List.filter_eq_self.mpr (fun c hc => slugOut_keep (hall c hc))
  have h4 : collapseRuns isJsSpace '-' (slugChars l) = slugChars l :=
    collapseAux_eq_self_of_none (fun c hc => slugOut_not_space (hall c hc))
  have h5 : collapseRuns isDashChar '-' (slugChars l) = slugChars l := by
    have hn : noDoubleDash (slugChars l) = true := noDoubleDash_collapseAux _ _
    exact (collapseAux_dash_eq_self hn).1
  calc slugChars (slugChars l)
      = collapseRuns isDashChar '-' (collapseRuns isJsSpace '-'
          ((jsTrim ((slugChars l).map jsToLower)).filter keepSlugChar)) := rfl
    _ = slugChars l := by rw [h1, h2, h3, h4, h5]

/-! ### First-error-wins helper -/

/-- Interpret a list of (fails, message) rules as a chain of early
returns: the message of the first rule whose predicate holds. -/
def chainOf : List (Bool × String) → Option String
  | [] => none
  | r :: rs => if r.1 then some r.2 else chainOf rs

theorem chainOf_eq_findSome? (rs : List (Bool × String)) :
    chainOf rs = rs.findSome? (fun r => if r.1 then some r.2 else none) := by
  induction rs with
  | nil => rfl
  | cons r t ih =>
    simp only [chainOf, List.findSome?_cons]
    by_cases h : r.1
    · rw [if_pos h, if_pos h]
    · rw [if_neg h, if_neg h, ih]

theorem chainOf_eq_none_iff (rs : List (Bool × String)) :
    chainOf rs = none ↔ ∀ r ∈ rs, r.1 = false := by
  induction rs with
  | nil => simp [chainOf]
  | cons r t ih =>
    simp only [chainOf, List.mem_cons]
    by_cases h : r.1
    · rw [if_pos h]
      constructor
      · intro hx; exact absurd hx (by simp)
      · intro hx; exact absurd (hx r (Or.inl rfl)) (by simp [h])
    · rw [if_neg h]
      constructor
      · intro hx q hq
        rcases hq with hq | hq
        · subst hq; simpa using h
        · exact ih.mp hx q hq
      · intro hx; exact ih.mpr (fun q hq => hx q (Or.inr hq))

/-! ### Claim theorems -/

/-- C4: the slug encoder is idempotent: for every input string `x`,
`createSlug (createSlug x)` equals `createSlug x`. -/
theorem createSlug_idempotent (s : String) :
    createSlug (createSlug s) = createSlug s := by
  unfold createSlug
  exact congrArg String.mk (slugChars_idem s.data)

/-- C10: for every input string, every character of the `createSlug`
output is a lowercase letter, a digit, an underscore, or a hyphen; in
particular the output contains no whitespace and no uppercase letter. -/
theorem createSlug_output_charset (s : String) :
    ((createSlug s).data.all isSlugOutChar) = true ∧
    ((createSlug s).data.all (fun c => !(isJsSpace c))) = true ∧
    ((createSlug s).data.all
      (fun c => !(65 ≤ c.toNat && c.toNat ≤ 90))) = true := by
  refine ⟨?_, ?_, ?_⟩
  · rw [List.all_eq_true]
    intro c hc
    exact mem_slugChars hc
  · rw [List.all_eq_true]
    intro c hc
    simp [slugOut_not_space (mem_slugChars hc)]
  · rw [List.all_eq_true]
    intro c hc
    have h := mem_slugChars hc
    simp only [isSlugOutChar, Bool.or_eq_true, Bool.and_eq_true, decide_eq_true_eq] at h
    simp only [Bool.not_eq_true', Bool.and_eq_false_iff, decide_eq_false_iff_not]
    omega

/-- C5: `validateMobile` strips non-digit characters and accepts exactly
the inputs with 10 to 15 digits, returning the empty string on valid
inputs and a message otherwise; concretely on "123" and "12345678901". -/
theorem validateMobile_spec :
    (∀ m : String, validateMobile m = "" ↔
      (10 ≤ mobileDigitCount m ∧ mobileDigitCount m ≤ 15)) ∧
    validateMobile "123" = "Please enter a valid mobile number" ∧
    validateMobile "12345678901" = "" := by
  refine ⟨?_, by decide, by decide⟩
  intro m
  unfold validateMobile
  split_ifs with h1 h2 h3
  · subst h1
    exact iff_of_false (by decide) (by decide)
  · exact iff_of_false (by decide) (by omega)
  · exact iff_of_false (by decide) (by omega)
  · exact iff_of_true rfl (by omega)

/-- C6: submit-time form validation is fail-fast and first-error-wins:
`validateForm` reports exactly the message of the least-index failing
rule of the fixed priority order (name, symbol, symbol length, name
availability, symbol availability, totalSupply, mintPrice, royalties,
royalties range, contractOwner presence, contractOwner format, image
presence), and passes exactly when every rule passes. -/
theorem validateForm_first_error_wins (fd : CreateFormData) (na sa : Option Bool) :
    validateFormMsg fd na sa = firstFailingRule fd na sa ∧
    (validateFormMsg fd na sa = none ↔ ∀ r ∈ formRules fd na sa, r.1 = false) := by
  have hchain : validateFormMsg fd na sa = chainOf (formRules fd na sa) := rfl
  constructor
  · rw [hchain]
    exact chainOf_eq_findSome? (formRules fd na sa)
  · rw [hchain]
    exact chainOf_eq_none_iff (formRules fd na sa)

/-- C8: a load whose path has exactly three non-empty segments under the
`projects` prefix selects the project-detail view with the decoded
hyphen-to-space, title-cased name pair; `/projects/jane-doe/my-art`
yields "Jane Doe"/"My Art", and `/projects` selects the gallery. -/
theorem initial_route_from_path :
    (∀ (path a p : String), pathParts path = ["projects", a, p] →
      initialView path = View.project ∧
      routeNames path = some (decodeSlug a, decodeSlug p)) ∧
    initialView "/projects/jane-doe/my-art" = View.project ∧
    routeNames "/projects/jane-doe/my-art" = some ("Jane Doe", "My Art") ∧
    initialView "/projects" = View.gallery := by
  refine ⟨?_, by decide, by decide, by decide⟩
  intro path a p h
  unfold initialView routeNames
  rw [h]
  exact ⟨by simp, rfl⟩

/-- C9: a project is mintable exactly when its status is approved, its
contract address is present (truthy), and minting is enabled; an approved
project with a contract address but minting disabled renders no mint
controls and shows the coming-soon indicator. -/
theorem canMint_iff_and_coming_soon :
    (∀ pr : ProjectT, canMint pr = true ↔
      (pr.status = ProjStatus.approved ∧ contractAddressTruthy pr = true ∧
        pr.mintingEnabled = true)) ∧
    (∀ pr : ProjectT, pr.status = ProjStatus.approved →
      contractAddressTruthy pr = true → pr.mintingEnabled = false →
      rendersMintSection pr = false ∧ rendersComingSoon pr = true) := by
  constructor
  · intro pr
    simp [canMint, Bool.and_eq_true, and_assoc]
  · intro pr h1 h2 h3
    constructor
    · simp [rendersMintSection, canMint, h3]
    · simp [rendersComingSoon, h1, h2, h3]

/-- C7: an input whose trimmed length is below two resets the
project-name verdict to unknown without any network call; and whenever a
request was issued and the fetch-and-parse step failed, the verdict
collapses to unknown — never to available — for both the name and the
symbol checker. -/
theorem availability_unknown_spec :
    (∀ (name : String) (aid : Option String) (fr : Except Unit Bool)
        (prev : Option Bool),
      (jsTrim name.data).length < 2 →
      checkProjectNameAvailability name aid fr prev =
        { verdict := none, networkCalled := false }) ∧
    (∀ (name : String) (aid : Option String) (prev : Option Bool),
      (checkProjectNameAvailability name aid (.error ()) prev).networkCalled = true →
      (checkProjectNameAvailability name aid (.error ()) prev).verdict = none) ∧
    (∀ (sym : String) (aid : Option String) (prev : Option Bool),
      (checkProjectSymbolAvailability sym aid (.error ()) prev).networkCalled = true →
      (checkProjectSymbolAvailability sym aid (.error ()) prev).verdict = none) := by
  refine ⟨?_, ?_, ?_⟩
  · intro name aid fr prev h
    unfold checkProjectNameAvailability
    rw [if_pos (Or.inr h)]
  · intro name aid prev
    unfold checkProjectNameAvailability
    split_ifs with h1
    · intro h; rfl
    · cases aid with
      | none => intro h; exact Bool.noConfusion h
      | some _ => intro h; rfl
  · intro sym aid prev
    unfold checkProjectSymbolAvailability
    split_ifs with h1
    · intro h; rfl
    · cases aid with
      | none => intro h; exact Bool.noConfusion h
      | some _ => intro h; rfl

/-- C7 witness: the one-character name "a" resets to unknown with no
request, and a failing request on "ab" collapses to unknown. -/
theorem availability_unknown_spec_witness :
    checkProjectNameAvailability "a" (some "id") (.ok true) (some true) =
      { verdict := none, networkCalled := false } ∧
    (checkProjectNameAvailability "ab" (some "id") (.error ()) (some true)).verdict
      = none := by
  constructor
  · exact availability_unknown_spec.1 "a" (some "id") (.ok true) (some true) (by decide)
  · exact availability_unknown_spec.2.1 "ab" (some "id") (some true) (by decide)

/-- C2: a mint request while the wallet is disconnected leaves the flow
idle with the connect-wallet message and invokes no wallet capability;
a mint request with the wallet connected but no contract address on the
project raises the contract-not-found message, stays idle, and invokes
no wallet capability. -/
theorem mint_preconditions_idle :
    (∀ e : MintEnv, e.isConnected = false →
      handleMint e =
        { minting := false, message := some "Please connect your wallet first",
          actions := [] }) ∧
    (∀ e : MintEnv, e.isConnected = true → e.walletAddress.isNone = false →
      mintContractAddress e.project = none →
      handleMint e =
        { minting := false, message := some "Project contract address not found",
          actions := [] }) := by
  constructor
  · intro e h
    unfold handleMint
    rw [if_pos (by simp [h])]
  · intro e h1 h2 h3
    unfold handleMint
    rw [if_neg (by simp [h1, h2]), h3]

/-- C2 witness: concrete disconnected and address-less requests. -/
theorem mint_preconditions_idle_witness :
    handleMint ⟨false, none, none, 137, none, 1, true⟩ =
      { minting := false, message := some "Please connect your wallet first",
        actions := [] } ∧
    handleMint ⟨true, some "0xw", some ⟨5, none, true, ProjStatus.approved⟩,
        137, some 7, 1, true⟩ =
      { minting := false, message := some "Project contract address not found",
        actions := [] } := by
  constructor
  · exact mint_preconditions_idle.1 _ rfl
  · exact mint_preconditions_idle.2 _ rfl rfl rfl

/-- C3: when the on-chain unit price read produced `P`, the submitted
transaction value equals `P` times the mint amount, computed exactly in
integer arithmetic in the contract's smallest unit; in particular a mint
amount of three submits exactly `3 * P`. -/
theorem mint_total_value_exact (e : MintEnv) (P : Nat) (addr : String)
    (h1 : e.isConnected = true) (h2 : e.walletAddress.isNone = false)
    (h3 : mintContractAddress e.project = some addr)
    (h4 : e.chainId = polygonChainId ∨ e.switchChainSucceeds = true)
    (h5 : e.basePrice = some P) :
    handleMint e =
      { minting := true, message := some "Initiating mint transaction...",
        actions :=
          (if e.chainId ≠ polygonChainId then [WalletAction.switchChain polygonChainId]
            else []) ++
          [WalletAction.writeContract addr "mint" e.mintAmount "Collector"
            (e.walletAddress.getD "") (P * e.mintAmount)] } ∧
    (e.mintAmount = 3 → P * e.mintAmount = 3 * P) := by
  constructor
  · have hcond : ¬ (e.chainId ≠ polygonChainId ∧ ¬ e.switchChainSucceeds = true) := by
      rcases h4 with h | h
      · intro hc; exact hc.1 h
      · intro hc; exact hc.2 h
    unfold handleMint
    rw [if_neg (by simp [h1, h2])]
    simp only [h3, h5, if_neg hcond]
    rfl
  · intro h6
    rw [h6, Nat.mul_comm]

/-- C3 witness: price 1000 and amount 3 submit exactly 3000. -/
theorem mint_total_value_exact_witness :
    handleMint ⟨true, some "0xw", some ⟨5, some "0xc", true, ProjStatus.approved⟩,
        137, some 1000, 3, true⟩ =
      { minting := true, message := some "Initiating mint transaction...",
        actions := [WalletAction.writeContract "0xc" "mint" 3 "Collector" "0xw"
          (1000 * 3)] } ∧
    (1000 : Nat) * 3 = 3 * 1000 := by
  have h := mint_total_value_exact
    ⟨true, some "0xw", some ⟨5, some "0xc", true, ProjStatus.approved⟩,
      137, some 1000, 3, true⟩ 1000 "0xc" rfl rfl rfl (Or.inl rfl) rfl
  exact ⟨h.1, h.2 rfl⟩

/-- C1 counterexample: with the wallet connected, a contract address
present and the chain already on target, but the on-chain price read not
yet having produced a value (`basePrice = none`), `handleMint` does not
block the submission: it invokes the contract write with a substituted
total value of zero and the informational message, not an error. -/
theorem mint_fallback_counterexample :
    (⟨true, some "0xw", some ⟨5, some "0xc", true, ProjStatus.approved⟩,
        137, none, 1, true⟩ : MintEnv).basePrice = none ∧
    handleMint ⟨true, some "0xw", some ⟨5, some "0xc", true, ProjStatus.approved⟩,
        137, none, 1, true⟩ =
      { minting := true, message := some "Initiating mint transaction...",
        actions := [WalletAction.writeContract "0xc" "mint" 1 "Collector" "0xw" 0] } := by
  decide

/-- C1 (amended): the stored advertised price is never used to compute
the submitted value — `handleMint` is invariant under any change of the
project's `mintPrice` — and when the on-chain read has not produced a
value at submit time the submission is not blocked: it proceeds with a
substituted unit price of zero. -/
theorem mint_advertised_price_never_used :
    (∀ (e : MintEnv) (v : Int),
      handleMint
        { e with project := e.project.map (fun p => { p with mintPrice := v }) } =
        handleMint e) ∧
    (∀ (e : MintEnv) (addr : String),
      e.isConnected = true → e.walletAddress.isNone = false →
      mintContractAddress e.project = some addr →
      (e.chainId = polygonChainId ∨ e.switchChainSucceeds = true) →
      e.basePrice = none →
      handleMint e =
        { minting := true, message := some "Initiating mint transaction...",
          actions :=
            (if e.chainId ≠ polygonChainId then
              [WalletAction.switchChain polygonChainId] else []) ++
            [WalletAction.writeContract addr "mint" e.mintAmount "Collector"
              (e.walletAddress.getD "") 0] }) := by
  have hmca : ∀ (op : Option ProjectT) (v : Int),
      mintContractAddress (op.map (fun p => { p with mintPrice := v })) =
        mintContractAddress op := by
    intro op v
    cases op with
    | none => rfl
    | some p => rfl
  constructor
  · intro e v
    obtain ⟨ic, wa, pr, ci, bp, ma, sc⟩ := e
    simp only [handleMint]
    rw [hmca pr v]
  · intro e addr h1 h2 h3 h4 h5
    have hcond : ¬ (e.chainId ≠ polygonChainId ∧ ¬ e.switchChainSucceeds = true) := by
      rcases h4 with h | h
      · intro hc; exact hc.1 h
      · intro hc; exact hc.2 h
    unfold handleMint
    rw [if_neg (by simp [h1, h2])]
    simp only [h3, h5, if_neg hcond, Option.getD_none, Nat.zero_mul]

/-- C1 witness: the amended statement at a concrete environment. -/
theorem mint_advertised_price_never_used_witness :
    handleMint
      { (⟨true, some "0xw", some ⟨5, some "0xc", true, ProjStatus.approved⟩,
          137, none, 2, true⟩ : MintEnv) with
        project := (some ⟨5, some "0xc", true, ProjStatus.approved⟩ :
          Option ProjectT).map (fun p => { p with mintPrice := 42 }) } =
      handleMint ⟨true, some "0xw", some ⟨5, some "0xc", true, ProjStatus.approved⟩,
          137, none, 2, true⟩ ∧
    handleMint ⟨true, some "0xw", some ⟨5, some "0xc", true, ProjStatus.approved⟩,
        137, none, 2, true⟩ =
      { minting := true, message := some "Initiating mint transaction...",
        actions := [WalletAction.writeContract "0xc" "mint" 2 "Collector" "0xw" 0] } := by
  constructor
  · exact mint_advertised_price_never_used.1
      ⟨true, some "0xw", some ⟨5, some "0xc", true, ProjStatus.approved⟩,
        137, none, 2, true⟩ 42
  · exact mint_advertised_price_never_used.2
      ⟨true, some "0xw", some ⟨5, some "0xc", true, ProjStatus.approved⟩,
        137, none, 2, true⟩ "0xc" rfl rfl rfl (Or.inl rfl) rfl

/-- C8 witness: the general routing statement at the concrete path. -/
theorem initial_route_from_path_witness :
    pathParts "/projects/jane-doe/my-art" = ["projects", "jane-doe", "my-art"] ∧
    initialView "/projects/jane-doe/my-art" = View.project ∧
    routeNames "/projects/jane-doe/my-art" =
      some (decodeSlug "jane-doe", decodeSlug "my-art") := by
  refine ⟨by decide, ?_⟩
  exact initial_route_from_path.1 "/projects/jane-doe/my-art" "jane-doe" "my-art"
    (by decide)

/-- C9 witness: an approved project with a contract address and minting
disabled hides the mint controls and shows the coming-soon indicator. -/
theorem canMint_iff_and_coming_soon_witness :
    rendersMintSection ⟨5, some "0xc", false, ProjStatus.approved⟩ = false ∧
    rendersComingSoon ⟨5, some "0xc", false, ProjStatus.approved⟩ = true := by
  exact canMint_iff_and_coming_soon.2 ⟨5, some "0xc", false, ProjStatus.approved⟩
    rfl rfl rfl
